import Mathlib

set_option maxHeartbeats 1000000

/-!
Shallow embedding of the duck-ci pipeline execution engine (src/server.go).

External effects (git, the YAML file, the Docker engine, SQLite) are modelled
by environment records holding the outcome each external call would return;
the engine functions are translated from the Go source and, besides their
return value, emit a trace of events: every log insert (`inertLog` via
`PushLog`), every job-status update (`updateJobStatus`), and every Docker
gateway call.  Container events carry the 0-based index of the pipeline step
that issued them; the index is a trace label only and never influences
control flow, mirroring the fact that the Go code does not branch on it.
-/

namespace DuckCI

/-- Step, from the Go struct `Step` (yaml tags name/image/runs). -/
structure Step where
  name : String
  image : String
  runs : String
deriving DecidableEq

/-- Config, from the Go struct `Config` (yaml tag steps). -/
structure Config where
  steps : List Step
deriving DecidableEq

/-- Project row (id, name, repo). -/
structure Project where
  id : Nat
  name : String
  repo : String

/-- Job row as the runner sees it (id, branch, owning project). -/
structure Job where
  id : Nat
  branch : String
  project : Project

/-- The values `createJob` inserts into the jobs table. -/
structure JobsRow where
  projectId : Nat
  branch : String
  status : Int

/-- createJob: `INSERT INTO jobs (project_id, branch, status) VALUES (?, ?, -1)`. -/
def createJob (projectId : Nat) (branch : String) : JobsRow :=
  { projectId := projectId, branch := branch, status := -1 }

/-- The status code written by every failure branch of `Run` (the literal -1). -/
def failedStatus : Int := -1

/-- The status code written by the success branch of `Run` (the literal 0). -/
def succeededStatus : Int := 0

/-- A parsed YAML document value (string scalars, sequences, mappings). -/
inductive Yaml where
  | str (s : String)
  | list (items : List Yaml)
  | map (entries : List (String × Yaml))

/-- What reading and parsing `duck-ci.yml` can yield: a read error
(missing file), a parse error (syntactically malformed document), or a
parsed document. -/
inductive FileData where
  | readErr (e : String)
  | unparseable (e : String)
  | parsed (y : Yaml)

/-- Decoding one string-typed struct field from a YAML mapping, with the
go-yaml semantics used by `yaml.Unmarshal`: a missing key leaves the Go
zero value (the empty string), a present string scalar is taken verbatim,
and a non-scalar value is a type error. -/
def getStr (entries : List (String × Yaml)) (key : String) : Except String String :=
  match entries.lookup key with
  | none => .ok ""
  | some (.str s) => .ok s
  | some _ => .error ("cannot unmarshal value of key " ++ key ++ " into string")

/-- Decoding one element of the steps sequence into a `Step`. -/
def decodeStep (y : Yaml) : Except String Step :=
  match y with
  | .map entries => do
    let n ← getStr entries "name"
    let i ← getStr entries "image"
    let r ← getStr entries "runs"
    .ok { name := n, image := i, runs := r }
  | _ => .error "cannot unmarshal value into Step"

/-- Decoding the whole document into a `Config`: only the key `steps` is
recognised, unknown keys are ignored, a missing `steps` key leaves the zero
value (no steps), and a non-sequence `steps` value is a type error. -/
def decodeConfig (y : Yaml) : Except String Config :=
  match y with
  | .map entries =>
    match entries.lookup "steps" with
    | none => .ok { steps := [] }
    | some (.list items) => do
      let steps ← items.mapM decodeStep
      .ok { steps := steps }
    | some _ => .error "cannot unmarshal value of key steps into list of Step"
  | _ => .error "cannot unmarshal document into Config"

/-- loadConfig: read `duck-ci.yml` from the repo path and unmarshal it,
wrapping errors exactly as the Go code does. -/
def loadConfig (data : FileData) : Except String Config :=
  match data with
  | .readErr e => .error ("failed to read config file: " ++ e)
  | .unparseable e => .error ("failed to parse config file: " ++ e)
  | .parsed y =>
    match decodeConfig y with
    | .error e => .error ("failed to parse config file: " ++ e)
    | .ok c => .ok c

/-- The progress stream returned by a successful ImagePull: the chunks that
can be read, and an optional read error ending the stream early. -/
structure PullStream where
  chunks : List String
  readErr : Option String

/-- Model of `io.Copy(io.Discard, out)`: consume the entire stream; on
success return the total number of bytes read, otherwise the read error. -/
def ioCopyDiscard (s : PullStream) : Except String Nat :=
  match s.readErr with
  | some e => .error e
  | none => .ok (s.chunks.foldl (fun acc c => acc + c.length) 0)

/-- One entry of the engine's image list: its repo tags. -/
structure DockerImage where
  repoTags : List String

/-- The container log stream: the lines the scanner delivers, and the value
of `scanner.Err()` once the stream ends. -/
structure StreamData where
  lines : List String
  scanErr : Option String

/-- Outcomes of the Docker engine calls one `runStep` invocation makes. -/
structure StepEnv where
  imageListRes : Except String (List DockerImage)
  pullRes : Except String PullStream
  createRes : Except String String
  startRes : Except String Unit
  logsRes : Except String StreamData
  waitRes : Except String Int
  removeErr : Option String

/-- Observable events of one run: store writes (log inserts and status
updates) and Docker gateway calls.  Container events carry the 0-based step
index as a ghost trace label. -/
inductive Event where
  | log (line : String)
  | status (code : Int)
  | imageListCall
  | imagePull (name : String)
  | containerCreate (stepIdx : Nat)
  | containerStart (stepIdx : Nat)
  | containerLogs (stepIdx : Nat)
  | containerWait (stepIdx : Nat)
  | containerRemove (stepIdx : Nat)
deriving DecidableEq

/-- ensureImage: list images; if any repo tag equals the requested name,
return nil; otherwise pull and drain the progress stream. -/
def ensureImage (env : StepEnv) (imageName : String) : Except String Unit × List Event :=
  match env.imageListRes with
  | .error e => (.error e, [.imageListCall])
  | .ok images =>
    if images.any (fun image => image.repoTags.any (fun tag => tag == imageName)) then
      (.ok (), [.imageListCall])
    else
      match env.pullRes with
      | .error e => (.error e, [.imageListCall, .imagePull imageName])
      | .ok s =>
        match ioCopyDiscard s with
        | .error e => (.error e, [.imageListCall, .imagePull imageName])
        | .ok _ => (.ok (), [.imageListCall, .imagePull imageName])

/-- createAndStartContainer: ContainerCreate then ContainerStart; either
failure propagates; on success the container id is returned. -/
def createAndStartContainer (env : StepEnv) (i : Nat) (_step : Step) (_repoPath : String) :
    Except String String × List Event :=
  match env.createRes with
  | .error e => (.error e, [.containerCreate i])
  | .ok cid =>
    match env.startRes with
    | .error e => (.error e, [.containerCreate i, .containerStart i])
    | .ok _ => (.ok cid, [.containerCreate i, .containerStart i])

/-- streamLogs: open the container log stream, push every delivered line to
the job log, and return the scanner error. -/
def streamLogs (env : StepEnv) (i : Nat) (_cid : String) : Except String Unit × List Event :=
  match env.logsRes with
  | .error e => (.error e, [.containerLogs i])
  | .ok s =>
    ((match s.scanErr with
      | some e => .error e
      | none => .ok ()),
     .containerLogs i :: s.lines.map Event.log)

/-- waitForContainer: on the error channel return (-1, err); on the status
channel return the exit code. -/
def waitForContainer (env : StepEnv) (i : Nat) (_cid : String) :
    (Int × Option String) × List Event :=
  match env.waitRes with
  | .error e => ((-1, some e), [.containerWait i])
  | .ok code => ((code, none), [.containerWait i])

/-- Decimal digit character, as produced by fmt `%d`. -/
def digitChar (n : Nat) : Char :=
  match n % 10 with
  | 0 => '0'
  | 1 => '1'
  | 2 => '2'
  | 3 => '3'
  | 4 => '4'
  | 5 => '5'
  | 6 => '6'
  | 7 => '7'
  | 8 => '8'
  | _ => '9'

/-- Fuel-driven decimal rendering of a natural number (most significant
digit first); fuel `n+1` always suffices. -/
def natReprAux : Nat → Nat → List Char
  | 0, _ => []
  | fuel + 1, n =>
    if n < 10 then [digitChar n]
    else natReprAux fuel (n / 10) ++ [digitChar (n % 10)]

/-- Decimal rendering of a natural number, modelling fmt `%d`. -/
def natRepr (n : Nat) : List Char :=
  natReprAux (n + 1) n

/-- Decimal rendering as a `String`. -/
def natStr (n : Nat) : String :=
  String.mk (natRepr n)

/-- Decimal rendering of an `Int`, modelling fmt `%d` on int64. -/
def intStr (c : Int) : String :=
  match c with
  | .ofNat n => natStr n
  | .negSucc n => "-" ++ natStr (n + 1)

/-- runStep: ensure the image, create and start the container, stream its
logs, wait for its exit, remove it (warning only on failure), and translate
a non-zero exit code into an error. -/
def runStep (env : StepEnv) (i : Nat) (step : Step) (repoPath : String) :
    Except String Unit × List Event :=
  match ensureImage env step.image with
  | (.error e, ev) => (.error ("failed to ensure image: " ++ e), ev)
  | (.ok _, ev1) =>
    match createAndStartContainer env i step repoPath with
    | (.error e, ev2) => (.error ("failed to create and start container: " ++ e), ev1 ++ ev2)
    | (.ok cid, ev2) =>
      match streamLogs env i cid with
      | (.error e, ev3) => (.error ("failed to stream logs: " ++ e), ev1 ++ ev2 ++ ev3)
      | (.ok _, ev3) =>
        match waitForContainer env i cid with
        | ((_, some e), ev4) =>
          (.error ("failed to wait for container: " ++ e), ev1 ++ ev2 ++ ev3 ++ ev4)
        | ((statusCode, none), ev4) =>
          let ev5 := Event.containerRemove i ::
            (match env.removeErr with
             | some e => [Event.log ("Warning: Failed to remove container: " ++ e)]
             | none => [])
          if statusCode ≠ 0 then
            (.error ("step failed with status code: " ++ intStr statusCode),
             ev1 ++ ev2 ++ ev3 ++ ev4 ++ ev5)
          else
            (.ok (), ev1 ++ ev2 ++ ev3 ++ ev4 ++ ev5)

/-- The run-scoped working directory:
`fmt.Sprintf("/tmp/duck-ci/%s-task-%d", job.Project.Name, job.Id)`. -/
def repoPath (job : Job) : String :=
  String.mk ("/tmp/duck-ci/".data ++ job.project.name.data ++ "-task-".data ++ natRepr job.id)

/-- Outcomes of the external calls one `Run` invocation makes. -/
structure RunEnv where
  gitErr : Option String
  gitOut : String
  configData : FileData
  dockerErr : Option String
  stepEnvs : Nat → StepEnv

/-- cloneRepository: run git clone into the run-scoped directory; on error
wrap the error and output, on success push the combined output as a log
line and return the path. -/
def cloneRepository (env : RunEnv) (job : Job) : Except String String × List Event :=
  match env.gitErr with
  | some e => (.error ("git clone error: " ++ (e ++ (", output: " ++ env.gitOut))), [])
  | none => (.ok (repoPath job), [.log env.gitOut])

/-- The step loop of `Run`: `for i, step := range config.Steps`, logging a
starting line, executing the step, and on failure logging the reason,
writing the failed status and returning; after the loop the success line
and status are written. -/
def runSteps (env : RunEnv) (rp : String) : List Step → Nat → List Event
  | [], _ => [.log "Job completed successfully", .status succeededStatus]
  | step :: rest, i =>
    Event.log ("Starting step " ++ (natStr (i + 1) ++ (": " ++ step.name))) ::
    match runStep (env.stepEnvs i) i step rp with
    | (.error e, ev) =>
      ev ++ [.log ("Step " ++ (natStr (i + 1) ++ (" failed: " ++ e))), .status failedStatus]
    | (.ok _, ev) =>
      ev ++ Event.log ("Step " ++ (natStr (i + 1) ++ " completed successfully")) ::
        runSteps env rp rest (i + 1)

/-- Run: the pipeline execution engine, from the Go `Run` method. -/
def Run (env : RunEnv) (job : Job) : List Event :=
  Event.log ("Starting job for project: " ++ job.project.name) ::
  match cloneRepository env job with
  | (.error e, ev) => ev ++ [.log ("Failed to clone repository: " ++ e), .status failedStatus]
  | (.ok rp, ev) =>
    ev ++
    match loadConfig env.configData with
    | .error e => [.log ("Failed to load configuration: " ++ e), .status failedStatus]
    | .ok config =>
      match env.dockerErr with
      | some e => [.log ("Failed to create Docker client: " ++ e), .status failedStatus]
      | none => runSteps env rp config.steps 0

/-- The sequence of status codes a trace writes, in order. -/
def statusWrites (t : List Event) : List Int :=
  t.filterMap (fun e =>
    match e with
    | .status c => some c
    | _ => none)

/-- Boolean string-prefix test via the underlying character lists. -/
def strStarts (p s : String) : Bool :=
  p.data.isPrefixOf s.data

/-- Recogniser for the runner's per-step starting log lines. -/
def isStartingStepLog (e : Event) : Bool :=
  match e with
  | .log s => strStarts "Starting step " s
  | _ => false

/-- Recogniser for image-list gateway calls (the first call of every
`runStep` invocation). -/
def isImageListCall (e : Event) : Bool :=
  match e with
  | .imageListCall => true
  | _ => false

/-- A step environment whose container output lines do not masquerade as
the runner's own starting-step lines. -/
def cleanStream (env : StepEnv) : Prop :=
  ∀ s, env.logsRes = .ok s → ∀ line ∈ s.lines, strStarts "Starting step " line = false

/-- A run environment none of whose externally supplied text lines
(git output, container output) masquerade as starting-step lines. -/
def noSpoof (env : RunEnv) : Prop :=
  strStarts "Starting step " env.gitOut = false ∧ ∀ j, cleanStream (env.stepEnvs j)

/-- Decoder of a decimal digit list back to its value; inverse of
`natRepr`, used to prove that decimal rendering is injective. -/
def digitsVal (l : List Char) : Nat :=
  l.foldl (fun acc c => acc * 10 + (c.toNat - 48)) 0

/-- A log line describing a run failure, in one of the four formats the
failure branches of `Run` produce. -/
def describesFailure (line : String) : Prop :=
  (∃ e, line = "Failed to clone repository: " ++ e) ∨
  (∃ e, line = "Failed to load configuration: " ++ e) ∨
  (∃ e, line = "Failed to create Docker client: " ++ e) ∨
  (∃ n e, line = "Step " ++ (natStr n ++ (" failed: " ++ e)))

/-- A two-step manifest used to exercise the fail-fast loop. -/
def c1Manifest : FileData :=
  .parsed (.map [("steps", .list [
    .map [("name", .str "build"), ("image", .str "alpine"), ("runs", .str "make")],
    .map [("name", .str "test"), ("image", .str "alpine"), ("runs", .str "make test")]])])

/-- The steps `c1Manifest` parses to. -/
def c1Steps : List Step :=
  [{ name := "build", image := "alpine", runs := "make" },
   { name := "test", image := "alpine", runs := "make test" }]

/-- A step environment in which every Docker call succeeds and the container
exits 0. -/
def c1StepOkEnv : StepEnv :=
  { imageListRes := .ok [{ repoTags := ["alpine"] }],
    pullRes := .ok { chunks := [], readErr := none },
    createRes := .ok "cid-ok",
    startRes := .ok (),
    logsRes := .ok { lines := ["out1"], scanErr := none },
    waitRes := .ok 0,
    removeErr := none }

/-- A step environment identical to `c1StepOkEnv` except the container
exits 2. -/
def c1StepFailEnv : StepEnv :=
  { imageListRes := .ok [{ repoTags := ["alpine"] }],
    pullRes := .ok { chunks := [], readErr := none },
    createRes := .ok "cid-fail",
    startRes := .ok (),
    logsRes := .ok { lines := ["out2"], scanErr := none },
    waitRes := .ok 2,
    removeErr := none }

/-- A run environment whose first step succeeds and second step fails. -/
def c1Env : RunEnv :=
  { gitErr := none,
    gitOut := "Cloning into repo",
    configData := c1Manifest,
    dockerErr := none,
    stepEnvs := fun j => if j = 0 then c1StepOkEnv else c1StepFailEnv }

/-- A sample job for concrete evaluations. -/
def c1Job : Job :=
  { id := 7, branch := "main", project := { id := 1, name := "demo", repo := "r" } }

/-- A sample step for concrete evaluations. -/
def c4Step : Step := { name := "tests", image := "alpine:latest", runs := "make test" }

/-- A step environment whose log streaming fails after the container was
created and started. -/
def c4Env : StepEnv :=
  { imageListRes := .ok [{ repoTags := ["alpine:latest"] }],
    pullRes := .ok { chunks := [], readErr := none },
    createRes := .ok "cid4",
    startRes := .ok (),
    logsRes := .error "connection reset",
    waitRes := .ok 0,
    removeErr := none }

/-- A step environment whose container exits 3 and whose removal fails. -/
def c4WitEnv : StepEnv :=
  { imageListRes := .ok [{ repoTags := ["alpine:latest"] }],
    pullRes := .ok { chunks := [], readErr := none },
    createRes := .ok "cid4w",
    startRes := .ok (),
    logsRes := .ok { lines := ["hello"], scanErr := none },
    waitRes := .ok 3,
    removeErr := some "device busy" }

/-- A manifest whose single step object carries only a name. -/
def c5Manifest : FileData :=
  .parsed (.map [("steps", .list [.map [("name", .str "build")]])])

/-- A step environment in which every Docker call succeeds. -/
def c5StepEnv : StepEnv :=
  { imageListRes := .ok [{ repoTags := [""] }],
    pullRes := .ok { chunks := [], readErr := none },
    createRes := .ok "cid5",
    startRes := .ok (),
    logsRes := .ok { lines := [], scanErr := none },
    waitRes := .ok 0,
    removeErr := none }

/-- A run environment that loads `c5Manifest` and executes it. -/
def c5Env : RunEnv :=
  { gitErr := none,
    gitOut := "cloned",
    configData := c5Manifest,
    dockerErr := none,
    stepEnvs := fun _ => c5StepEnv }

/-- A sample job for the `c5Env` run. -/
def c5Job : Job :=
  { id := 3, branch := "main", project := { id := 1, name := "demo", repo := "r" } }

/-- The spec's round-trip manifest with one fully specified step. -/
def c6GoodManifest : FileData :=
  .parsed (.map [("steps", .list [
    .map [("name", .str "build"), ("image", .str "alpine"), ("runs", .str "echo hi")]])])

/-- A manifest whose steps value is a scalar instead of a list. -/
def c6BadSteps : FileData :=
  .parsed (.map [("steps", .str "build-then-test")])

/-- The round-trip manifest surrounded by unrecognised top-level keys. -/
def c6UnknownKeys : FileData :=
  .parsed (.map [("version", .str "1"),
    ("steps", .list [
      .map [("name", .str "build"), ("image", .str "alpine"), ("runs", .str "echo hi")]]),
    ("cache", .list [])])

/-- A step environment reaching the wait with exit code 3. -/
def c7Env : StepEnv :=
  { imageListRes := .ok [{ repoTags := ["alpine"] }],
    pullRes := .ok { chunks := [], readErr := none },
    createRes := .ok "cid7",
    startRes := .ok (),
    logsRes := .ok { lines := [], scanErr := none },
    waitRes := .ok 3,
    removeErr := none }

/-- A sample step whose image matches the tag listed in `c7Env`. -/
def c7Step : Step := { name := "unit", image := "alpine", runs := "make unit" }

/-- A step environment whose image list already contains the wanted tag. -/
def c8HitEnv : StepEnv :=
  { imageListRes := .ok [{ repoTags := ["alpine:3", "alpine:latest"] }],
    pullRes := .error "unused",
    createRes := .ok "cid8",
    startRes := .ok (),
    logsRes := .ok { lines := [], scanErr := none },
    waitRes := .ok 0,
    removeErr := none }

/-- A step environment whose image list misses the wanted tag and whose
pull succeeds with a two-chunk progress stream. -/
def c8MissEnv : StepEnv :=
  { imageListRes := .ok [{ repoTags := ["ubuntu:22.04"] }],
    pullRes := .ok { chunks := ["abc", "de"], readErr := none },
    createRes := .ok "cid8m",
    startRes := .ok (),
    logsRes := .ok { lines := [], scanErr := none },
    waitRes := .ok 0,
    removeErr := none }

/-- A run environment whose manifest has no steps key at all. -/
def c10Env : RunEnv :=
  { gitErr := none,
    gitOut := "done",
    configData := .parsed (.map []),
    dockerErr := none,
    stepEnvs := fun _ => c5StepEnv }

/-- A sample job for the `c10Env` run. -/
def c10Job : Job :=
  { id := 4, branch := "dev", project := { id := 2, name := "empty", repo := "r" } }

lemma isPrefixOf_self_append (l t : List Char) : l.isPrefixOf (l ++ t) = true := by
  induction l with
  | nil => simp
  | cons x xs ih => simp [List.isPrefixOf, ih]

lemma isPrefixOf_append_cases : ∀ (p a w : List Char),
    p.isPrefixOf (a ++ w) = true → p.isPrefixOf a = true ∨ a.isPrefixOf p = true := by
  intro p
  induction p with
  | nil => intro a w _; left; simp
  | cons x xs ih =>
    intro a w h
    cases a with
    | nil => right; simp
    | cons y ys =>
      rw [List.cons_append] at h
      simp only [List.isPrefixOf, Bool.and_eq_true] at h ⊢
      rcases h with ⟨hxy, h⟩
      have hxy2 : x = y := by simpa using hxy
      subst hxy2
      rcases ih ys w h with h1 | h1
      · left; exact ⟨by simp, h1⟩
      · right; exact ⟨by simp, h1⟩

lemma strStarts_self_append (p w : String) : strStarts p (p ++ w) = true := by
  unfold strStarts
  rw [String.data_append]
  exact isPrefixOf_self_append _ _

lemma strStarts_append_false (p a w : String)
    (h1 : p.data.isPrefixOf a.data = false) (h2 : a.data.isPrefixOf p.data = false) :
    strStarts p (a ++ w) = false := by
  unfold strStarts
  rw [String.data_append]
  apply Bool.eq_false_iff.mpr
  intro htrue
  rcases isPrefixOf_append_cases _ _ _ htrue with h | h
  · rw [h1] at h; exact Bool.false_ne_true h
  · rw [h2] at h; exact Bool.false_ne_true h

lemma digitChar_isDigit (n : Nat) : (digitChar n).isDigit = true := by
  unfold digitChar
  have h : n % 10 < 10 := Nat.mod_lt _ (by decide)
  generalize n % 10 = k at h ⊢
  interval_cases k <;> decide

lemma digitChar_toNat (n : Nat) : (digitChar n).toNat = 48 + n % 10 := by
  unfold digitChar
  have h : n % 10 < 10 := Nat.mod_lt _ (by decide)
  generalize n % 10 = k at h ⊢
  interval_cases k <;> decide

lemma natReprAux_digits : ∀ (fuel n : Nat), ∀ c ∈ natReprAux fuel n, c.isDigit = true := by
  intro fuel
  induction fuel with
  | zero => intro n c hc; simp [natReprAux] at hc
  | succ fuel ih =>
    intro n c hc
    unfold natReprAux at hc
    by_cases h : n < 10
    · rw [if_pos h] at hc
      simp only [List.mem_singleton] at hc
      subst hc
      exact digitChar_isDigit n
    · rw [if_neg h] at hc
      rcases List.mem_append.mp hc with hc | hc
      · exact ih _ _ hc
      · simp only [List.mem_singleton] at hc
        subst hc
        exact digitChar_isDigit _

lemma digitsVal_append_digit (l : List Char) (c : Char) :
    digitsVal (l ++ [c]) = digitsVal l * 10 + (c.toNat - 48) := by
  unfold digitsVal
  rw [List.foldl_append]
  rfl

lemma digitsVal_natReprAux : ∀ (fuel n : Nat), n < fuel → digitsVal (natReprAux fuel n) = n := by
  intro fuel
  induction fuel with
  | zero => intro n h; exact absurd h (Nat.not_lt_zero n)
  | succ fuel ih =>
    intro n h
    unfold natReprAux
    by_cases h10 : n < 10
    · rw [if_pos h10]
      have : digitsVal [digitChar n] = (digitChar n).toNat - 48 := by
        simp [digitsVal]
      rw [this, digitChar_toNat, Nat.mod_eq_of_lt h10]
      omega
    · rw [if_neg h10]
      have hb : n / 10 < fuel := by
        have h1 : n / 10 < n := Nat.div_lt_self (by omega) (by decide)
        omega
      rw [digitsVal_append_digit, ih _ hb, digitChar_toNat]
      have := Nat.div_add_mod n 10
      omega

lemma digitsVal_natRepr (n : Nat) : digitsVal (natRepr n) = n :=
  digitsVal_natReprAux (n + 1) n (Nat.lt_succ_self n)

lemma natRepr_inj {a b : Nat} (h : natRepr a = natRepr b) : a = b := by
  have h2 := congrArg digitsVal h
  rwa [digitsVal_natRepr, digitsVal_natRepr] at h2

lemma natRepr_digits (n : Nat) (c : Char) (hc : c ∈ natRepr n) : c.isDigit = true :=
  natReprAux_digits _ _ c hc

lemma digit_block_rev : ∀ (r1 r2 t1 t2 : List Char),
    (∀ c ∈ r1, c.isDigit = true) → (∀ c ∈ r2, c.isDigit = true) →
    r1 ++ '-' :: t1 = r2 ++ '-' :: t2 → r1 = r2 := by
  intro r1
  induction r1 with
  | nil =>
    intro r2 t1 t2 _ h2 heq
    cases r2 with
    | nil => rfl
    | cons y ys =>
      simp only [List.nil_append, List.cons_append, List.cons.injEq] at heq
      obtain ⟨hy, -⟩ := heq
      have hd : y.isDigit = true := h2 y (List.mem_cons_self y ys)
      rw [← hy] at hd
      exact absurd hd (by decide)
  | cons x xs ih =>
    intro r2 t1 t2 h1 h2 heq
    cases r2 with
    | nil =>
      simp only [List.nil_append, List.cons_append, List.cons.injEq] at heq
      obtain ⟨hx, -⟩ := heq
      have hd : x.isDigit = true := h1 x (List.mem_cons_self x xs)
      rw [hx] at hd
      exact absurd hd (by decide)
    | cons y ys =>
      simp only [List.cons_append, List.cons.injEq] at heq
      obtain ⟨hxy, htl⟩ := heq
      subst hxy
      rw [ih ys t1 t2 (fun c hc => h1 c (List.mem_cons_of_mem _ hc))
        (fun c hc => h2 c (List.mem_cons_of_mem _ hc)) htl]

lemma repoPath_inj (j1 j2 : Job) (h : j1.id ≠ j2.id) : repoPath j1 ≠ repoPath j2 := by
  intro he
  apply h
  apply natRepr_inj
  have hd : "/tmp/duck-ci/".data ++ j1.project.name.data ++ "-task-".data ++ natRepr j1.id
      = "/tmp/duck-ci/".data ++ j2.project.name.data ++ "-task-".data ++ natRepr j2.id := by
    have h2 := congrArg String.data he
    simpa [repoPath] using h2
  have hrev := congrArg List.reverse hd
  simp only [List.reverse_append, List.append_assoc] at hrev
  have hc : ("-task-".data).reverse = '-' :: ('k' :: ('s' :: ('a' :: ('t' :: ('-' :: []))))) := by
    decide
  rw [hc] at hrev
  simp only [List.cons_append] at hrev
  have hblock := digit_block_rev _ _ _ _
    (fun c hcm => natRepr_digits _ c (List.mem_reverse.mp hcm))
    (fun c hcm => natRepr_digits _ c (List.mem_reverse.mp hcm)) hrev
  exact List.reverse_injective hblock

lemma statusWrites_append (a b : List Event) :
    statusWrites (a ++ b) = statusWrites a ++ statusWrites b :=
  List.filterMap_append a b _

lemma ensureImage_trace (env : StepEnv) (nm : String) :
    statusWrites (ensureImage env nm).2 = [] ∧
    List.countP isImageListCall (ensureImage env nm).2 = 1 ∧
    (∀ j, Event.containerCreate j ∉ (ensureImage env nm).2) ∧
    List.countP isStartingStepLog (ensureImage env nm).2 = 0 := by
  unfold ensureImage
  rcases h1 : env.imageListRes with e | imgs
  · exact ⟨rfl, rfl, fun j hj => by simp at hj, rfl⟩
  · by_cases hA : (imgs.any fun image => image.repoTags.any fun tag => tag == nm) = true
    · simp only [hA, if_true]
      exact ⟨rfl, rfl, fun j hj => by simp at hj, rfl⟩
    · simp only [Bool.not_eq_true] at hA
      simp only [hA, Bool.false_eq_true, if_false]
      rcases h2 : env.pullRes with e | s
      · simp only [h2]
        exact ⟨rfl, rfl, fun j hj => by simp at hj, rfl⟩
      · simp only [h2]
        rcases h3 : ioCopyDiscard s with e | n
        · simp only [h3]
          exact ⟨rfl, rfl, fun j hj => by simp at hj, rfl⟩
        · simp only [h3]
          exact ⟨rfl, rfl, fun j hj => by simp at hj, rfl⟩

lemma createStart_trace (env : StepEnv) (i : Nat) (step : Step) (rp : String) :
    statusWrites (createAndStartContainer env i step rp).2 = [] ∧
    List.countP isImageListCall (createAndStartContainer env i step rp).2 = 0 ∧
    (∀ j, Event.containerCreate j ∈ (createAndStartContainer env i step rp).2 → j = i) ∧
    List.countP isStartingStepLog (createAndStartContainer env i step rp).2 = 0 := by
  unfold createAndStartContainer
  rcases h1 : env.createRes with e | cid
  · refine ⟨rfl, rfl, fun j hj => ?_, rfl⟩
    simpa using hj
  · rcases h2 : env.startRes with e | u
    · refine ⟨rfl, rfl, fun j hj => ?_, rfl⟩
      simpa using hj
    · refine ⟨rfl, rfl, fun j hj => ?_, rfl⟩
      simpa using hj

lemma streamLogs_trace (env : StepEnv) (i : Nat) (cid : String) :
    statusWrites (streamLogs env i cid).2 = [] ∧
    List.countP isImageListCall (streamLogs env i cid).2 = 0 ∧
    (∀ j, Event.containerCreate j ∉ (streamLogs env i cid).2) ∧
    (cleanStream env → List.countP isStartingStepLog (streamLogs env i cid).2 = 0) := by
  unfold streamLogs
  rcases h1 : env.logsRes with e | s
  · exact ⟨rfl, rfl, fun j hj => by simp at hj, fun _ => rfl⟩
  · refine ⟨?_, ?_, ?_, ?_⟩
    · simp only [statusWrites, List.filterMap_cons]
      rw [List.filterMap_eq_nil_iff]
      intro e he
      rcases List.mem_map.mp he with ⟨l, _, rfl⟩
      rfl
    · simp only [List.countP_cons]
      rw [List.countP_eq_zero.mpr]
      · rfl
      · intro e he
        rcases List.mem_map.mp he with ⟨l, _, rfl⟩
        simp [isImageListCall]
    · intro j hj
      rcases List.mem_cons.mp hj with hj | hj
      · exact Event.noConfusion hj
      · rcases List.mem_map.mp hj with ⟨l, _, hl⟩
        exact Event.noConfusion hl
    · intro hclean
      simp only [List.countP_cons]
      rw [List.countP_eq_zero.mpr]
      · rfl
      · intro e he
        rcases List.mem_map.mp he with ⟨l, hl, rfl⟩
        simp only [isStartingStepLog]
        rw [hclean s h1 l hl]
        simp

lemma wait_trace (env : StepEnv) (i : Nat) (cid : String) :
    statusWrites (waitForContainer env i cid).2 = [] ∧
    List.countP isImageListCall (waitForContainer env i cid).2 = 0 ∧
    (∀ j, Event.containerCreate j ∉ (waitForContainer env i cid).2) ∧
    List.countP isStartingStepLog (waitForContainer env i cid).2 = 0 := by
  unfold waitForContainer
  rcases h1 : env.waitRes with e | c
  · exact ⟨rfl, rfl, fun j hj => by simp at hj, rfl⟩
  · exact ⟨rfl, rfl, fun j hj => by simp at hj, rfl⟩

lemma remove_trace (i : Nat) (o : Option String) :
    statusWrites (Event.containerRemove i ::
      (match o with
       | some e => [Event.log ("Warning: Failed to remove container: " ++ e)]
       | none => [])) = [] ∧
    List.countP isImageListCall (Event.containerRemove i ::
      (match o with
       | some e => [Event.log ("Warning: Failed to remove container: " ++ e)]
       | none => [])) = 0 ∧
    (∀ j, Event.containerCreate j ∉ (Event.containerRemove i ::
      (match o with
       | some e => [Event.log ("Warning: Failed to remove container: " ++ e)]
       | none => []))) ∧
    List.countP isStartingStepLog (Event.containerRemove i ::
      (match o with
       | some e => [Event.log ("Warning: Failed to remove container: " ++ e)]
       | none => [])) = 0 := by
  rcases o with e | e
  · exact ⟨rfl, rfl, fun j hj => by simp at hj, rfl⟩
  · refine ⟨rfl, rfl, fun j hj => by simp at hj, ?_⟩
    simp only [List.countP_cons, List.countP_nil]
    have hw : isStartingStepLog (Event.log ("Warning: Failed to remove container: " ++ e)) = false := by
      simp only [isStartingStepLog]
      exact strStarts_append_false _ "Warning: Failed to remove container: " e
        (by decide) (by decide)
    have hr : isStartingStepLog (Event.containerRemove i) = false := rfl
    simp [List.countP_cons, hw, hr]

lemma runStep_trace (env : StepEnv) (i : Nat) (step : Step) (rp : String) :
    statusWrites (runStep env i step rp).2 = [] ∧
    List.countP isImageListCall (runStep env i step rp).2 = 1 ∧
    (∀ j, Event.containerCreate j ∈ (runStep env i step rp).2 → j = i) ∧
    (cleanStream env → List.countP isStartingStepLog (runStep env i step rp).2 = 0) := by
  obtain ⟨h1s, h1c, h1n, h1p⟩ := ensureImage_trace env step.image
  unfold runStep
  split
  next e ev1 heq1 =>
    rw [heq1] at h1s h1c h1n h1p
    exact ⟨h1s, h1c, fun j hj => absurd hj (h1n j), fun _ => h1p⟩
  next u ev1 heq1 =>
    rw [heq1] at h1s h1c h1n h1p
    obtain ⟨h2s, h2c, h2m, h2p⟩ := createStart_trace env i step rp
    split
    next e ev2 heq2 =>
      rw [heq2] at h2s h2c h2m h2p
      refine ⟨?_, ?_, ?_, fun _ => ?_⟩
      · simp [statusWrites_append, h1s, h2s]
      · simp [List.countP_append, h1c, h2c]
      · intro j hj
        rcases List.mem_append.mp hj with hj | hj
        · exact absurd hj (h1n j)
        · exact h2m j hj
      · simp [List.countP_append, h1p, h2p]
    next cid ev2 heq2 =>
      rw [heq2] at h2s h2c h2m h2p
      obtain ⟨h3s, h3c, h3n, h3p⟩ := streamLogs_trace env i cid
      split
      next e ev3 heq3 =>
        rw [heq3] at h3s h3c h3n h3p
        refine ⟨?_, ?_, ?_, fun hcl => ?_⟩
        · simp [statusWrites_append, h1s, h2s, h3s]
        · simp [List.countP_append, h1c, h2c, h3c]
        · intro j hj
          rcases List.mem_append.mp hj with hj | hj
          · rcases List.mem_append.mp hj with hj | hj
            · exact absurd hj (h1n j)
            · exact h2m j hj
          · exact absurd hj (h3n j)
        · simp [List.countP_append, h1p, h2p, h3p hcl]
      next u3 ev3 heq3 =>
        rw [heq3] at h3s h3c h3n h3p
        obtain ⟨h4s, h4c, h4n, h4p⟩ := wait_trace env i cid
        split
        next code e ev4 heq4 =>
          rw [heq4] at h4s h4c h4n h4p
          refine ⟨?_, ?_, ?_, fun hcl => ?_⟩
          · simp [statusWrites_append, h1s, h2s, h3s, h4s]
          · simp [List.countP_append, h1c, h2c, h3c, h4c]
          · intro j hj
            rcases List.mem_append.mp hj with hj | hj
            · rcases List.mem_append.mp hj with hj | hj
              · rcases List.mem_append.mp hj with hj | hj
                · exact absurd hj (h1n j)
                · exact h2m j hj
              · exact absurd hj (h3n j)
            · exact absurd hj (h4n j)
          · simp [List.countP_append, h1p, h2p, h3p hcl, h4p]
        next statusCode ev4 heq4 =>
          rw [heq4] at h4s h4c h4n h4p
          obtain ⟨h5s, h5c, h5n, h5p⟩ := remove_trace i env.removeErr
          have hfin : ∀ (ev : List Event),
              ev = ev1 ++ ev2 ++ ev3 ++ ev4 ++ (Event.containerRemove i ::
                (match env.removeErr with
                 | some e => [Event.log ("Warning: Failed to remove container: " ++ e)]
                 | none => [])) →
              statusWrites ev = [] ∧
              List.countP isImageListCall ev = 1 ∧
              (∀ j, Event.containerCreate j ∈ ev → j = i) ∧
              (cleanStream env → List.countP isStartingStepLog ev = 0) := by
            intro ev hev
            subst hev
            refine ⟨?_, ?_, ?_, fun hcl => ?_⟩
            · simp [statusWrites_append, h1s, h2s, h3s, h4s, h5s]
            · simp [List.countP_append, h1c, h2c, h3c, h4c, h5c]
            · intro j hj
              rcases List.mem_append.mp hj with hj | hj
              · rcases List.mem_append.mp hj with hj | hj
                · rcases List.mem_append.mp hj with hj | hj
                  · rcases List.mem_append.mp hj with hj | hj
                    · exact absurd hj (h1n j)
                    · exact h2m j hj
                  · exact absurd hj (h3n j)
                · exact absurd hj (h4n j)
              · exact absurd hj (h5n j)
            · simp [List.countP_append, h1p, h2p, h3p hcl, h4p, h5p]
          by_cases hz : statusCode ≠ 0
          · simp only [if_pos hz]
            exact hfin _ rfl
          · simp only [if_neg hz]
            exact hfin _ rfl

lemma runSteps_shape (env : RunEnv) (rp : String) :
    ∀ (steps : List Step) (i : Nat), ∃ t line code,
      runSteps env rp steps i = t ++ [Event.log line, Event.status code] ∧
      statusWrites t = [] ∧
      ((code = failedStatus ∧ ∃ n e, line = "Step " ++ (natStr n ++ (" failed: " ++ e))) ∨
       (code = succeededStatus ∧ line = "Job completed successfully")) := by
  intro steps
  induction steps with
  | nil =>
    intro i
    exact ⟨[], "Job completed successfully", succeededStatus, rfl, rfl, Or.inr ⟨rfl, rfl⟩⟩
  | cons s rest ih =>
    intro i
    obtain ⟨hts, _, _, _⟩ := runStep_trace (env.stepEnvs i) i s rp
    unfold runSteps
    rcases hr : runStep (env.stepEnvs i) i s rp with ⟨r, ev⟩
    rw [hr] at hts
    cases r with
    | error e =>
      refine ⟨Event.log ("Starting step " ++ (natStr (i + 1) ++ (": " ++ s.name))) :: ev,
        "Step " ++ (natStr (i + 1) ++ (" failed: " ++ e)), failedStatus, ?_, ?_, ?_⟩
      · simp
      · simpa [statusWrites] using hts
      · exact Or.inl ⟨rfl, i + 1, e, rfl⟩
    | ok u =>
      obtain ⟨t, line, code, heq, hsw, hcase⟩ := ih (i + 1)
      refine ⟨Event.log ("Starting step " ++ (natStr (i + 1) ++ (": " ++ s.name))) :: ev ++
        Event.log ("Step " ++ (natStr (i + 1) ++ " completed successfully")) :: t,
        line, code, ?_, ?_, hcase⟩
      · rw [heq]
        simp
      · simp [statusWrites, statusWrites_append] at hts hsw ⊢
        exact ⟨hts, hsw⟩

lemma Run_shape (env : RunEnv) (job : Job) :
    ∃ t line code, Run env job = t ++ [Event.log line, Event.status code] ∧
      statusWrites t = [] ∧
      ((code = failedStatus ∧ describesFailure line) ∨
       (code = succeededStatus ∧ line = "Job completed successfully")) := by
  unfold Run cloneRepository
  rcases hg : env.gitErr with _ | e
  · rcases hc : loadConfig env.configData with e | config
    · dsimp only
      refine ⟨[Event.log ("Starting job for project: " ++ job.project.name),
        Event.log env.gitOut], "Failed to load configuration: " ++ e, failedStatus,
        by simp, rfl, Or.inl ⟨rfl, Or.inr (Or.inl ⟨e, rfl⟩)⟩⟩
    · rcases hd : env.dockerErr with _ | e
      · dsimp only
        obtain ⟨t, line, code, heq, hsw, hcase⟩ := runSteps_shape env (repoPath job) config.steps 0
        refine ⟨Event.log ("Starting job for project: " ++ job.project.name) ::
          Event.log env.gitOut :: t, line, code, ?_, ?_, ?_⟩
        · rw [heq]; simp
        · simpa [statusWrites] using hsw
        · rcases hcase with ⟨hco, n, e, hl⟩ | h
          · exact Or.inl ⟨hco, Or.inr (Or.inr (Or.inr ⟨n, e, hl⟩))⟩
          · exact Or.inr h
      · dsimp only
        refine ⟨[Event.log ("Starting job for project: " ++ job.project.name),
          Event.log env.gitOut], "Failed to create Docker client: " ++ e, failedStatus,
          by simp, rfl, Or.inl ⟨rfl, Or.inr (Or.inr (Or.inl ⟨e, rfl⟩))⟩⟩
  · dsimp only
    refine ⟨[Event.log ("Starting job for project: " ++ job.project.name)],
      "Failed to clone repository: " ++
        ("git clone error: " ++ (e ++ (", output: " ++ env.gitOut))), failedStatus,
      by simp, rfl, Or.inl ⟨rfl, Or.inl ⟨_, rfl⟩⟩⟩

lemma Run_statusWrites (env : RunEnv) (job : Job) :
    statusWrites (Run env job) = [failedStatus] ∨
    statusWrites (Run env job) = [succeededStatus] := by
  obtain ⟨t, line, code, heq, hsw, hcase⟩ := Run_shape env job
  rw [heq, statusWrites_append, hsw]
  rcases hcase with ⟨hco, -⟩ | ⟨hco, -⟩
  · left; rw [hco]; rfl
  · right; rw [hco]; rfl

lemma runSteps_fail (env : RunEnv) (rp : String) (hcl : ∀ j, cleanStream (env.stepEnvs j)) :
    ∀ (steps : List Step) (f i : Nat),
      f < steps.length →
      (∀ j, j < f →
        (runStep (env.stepEnvs (i + j)) (i + j) (steps.getD j { name := "", image := "", runs := "" }) rp).1 = .ok ()) →
      (∃ e, (runStep (env.stepEnvs (i + f)) (i + f) (steps.getD f { name := "", image := "", runs := "" }) rp).1 = .error e) →
      List.countP isStartingStepLog (runSteps env rp steps i) = f + 1 ∧
      List.countP isImageListCall (runSteps env rp steps i) = f + 1 ∧
      (∀ j, Event.containerCreate j ∈ runSteps env rp steps i → j ≤ i + f) ∧
      (∃ t e, runSteps env rp steps i = t ++
        [Event.log ("Step " ++ (natStr (i + f + 1) ++ (" failed: " ++ e))),
         Event.status failedStatus]) := by
  intro steps
  induction steps with
  | nil =>
    intro f i hf
    exact absurd hf (Nat.not_lt_zero f)
  | cons s rest ih =>
    intro f i hf hpre hfail
    obtain ⟨-, hc1, hn1, hp1⟩ := runStep_trace (env.stepEnvs i) i s rp
    have hstart : strStarts "Starting step "
        ("Starting step " ++ (natStr (i + 1) ++ (": " ++ s.name))) = true :=
      strStarts_self_append _ _
    have hfalse : ∀ (w : String), strStarts "Starting step " ("Step " ++ w) = false :=
      fun w => strStarts_append_false _ "Step " w (by decide) (by decide)
    cases f with
    | zero =>
      obtain ⟨e, he⟩ := hfail
      simp only [Nat.add_zero, List.getD_cons_zero] at he
      unfold runSteps
      rcases hr : runStep (env.stepEnvs i) i s rp with ⟨r, ev⟩
      rw [hr] at he hc1 hn1 hp1
      have hre : r = .error e := he
      subst hre
      refine ⟨?_, ?_, ?_, ?_⟩
      · simp [List.countP_cons, List.countP_append, hstart, hp1 (hcl i), hfalse,
          isStartingStepLog]
      · simp [List.countP_cons, List.countP_append, hc1, isImageListCall]
      · intro j hj
        rcases List.mem_cons.mp hj with hj | hj
        · exact Event.noConfusion hj
        · rcases List.mem_append.mp hj with hj | hj
          · rw [hn1 j hj]; omega
          · simp at hj
      · exact ⟨Event.log ("Starting step " ++ (natStr (i + 1) ++ (": " ++ s.name))) :: ev, e,
          by simp⟩
    | succ f' =>
      have hp0 := hpre 0 (Nat.succ_pos f')
      simp only [Nat.add_zero, List.getD_cons_zero] at hp0
      unfold runSteps
      rcases hr : runStep (env.stepEnvs i) i s rp with ⟨r, ev⟩
      rw [hr] at hp0 hc1 hn1 hp1
      have hro : r = .ok () := hp0
      subst hro
      have hf' : f' < rest.length := by
        simp only [List.length_cons] at hf
        omega
      have hpre' : ∀ j, j < f' →
          (runStep (env.stepEnvs (i + 1 + j)) (i + 1 + j)
            (rest.getD j { name := "", image := "", runs := "" }) rp).1 = .ok () := by
        intro j hj
        have h2 := hpre (j + 1) (by omega)
        have hidx : i + (j + 1) = i + 1 + j := by omega
        rw [hidx] at h2
        exact h2
      have hfail' : ∃ e, (runStep (env.stepEnvs (i + 1 + f')) (i + 1 + f')
          (rest.getD f' { name := "", image := "", runs := "" }) rp).1 = .error e := by
        obtain ⟨e, he⟩ := hfail
        have hidx : i + (f' + 1) = i + 1 + f' := by omega
        rw [hidx] at he
        exact ⟨e, he⟩
      obtain ⟨hcnt, hcnt2, hcr, t, e, hshape⟩ := ih f' (i + 1) hf' hpre' hfail'
      refine ⟨?_, ?_, ?_, ?_⟩
      · simp [List.countP_cons, List.countP_append, hstart, hp1 (hcl i), hfalse,
          hcnt, isStartingStepLog]
      · simp [List.countP_cons, List.countP_append, hc1, hcnt2, isImageListCall]
        omega
      · intro j hj
        rcases List.mem_cons.mp hj with hj | hj
        · exact Event.noConfusion hj
        · rcases List.mem_append.mp hj with hj | hj
          · rw [hn1 j hj]; omega
          · rcases List.mem_cons.mp hj with hj | hj
            · exact Event.noConfusion hj
            · have := hcr j hj
              omega
      · rw [show i + 1 + f' + 1 = i + (f' + 1) + 1 from by omega] at hshape
        rw [hshape]
        exact ⟨Event.log ("Starting step " ++ (natStr (i + 1) ++ (": " ++ s.name))) :: ev ++
          Event.log ("Step " ++ (natStr (i + 1) ++ " completed successfully")) :: t, e,
          by simp⟩

lemma runStep_after_wait (env : StepEnv) (i : Nat) (step : Step) (rp cid : String) (c : Int)
    (hens : (ensureImage env step.image).1 = .ok ())
    (hcs : (createAndStartContainer env i step rp).1 = .ok cid)
    (hstr : (streamLogs env i cid).1 = .ok ())
    (hw : (waitForContainer env i cid).1 = (c, none)) :
    runStep env i step rp =
      ((if c ≠ 0 then .error ("step failed with status code: " ++ intStr c) else .ok ()),
       (ensureImage env step.image).2 ++ (createAndStartContainer env i step rp).2 ++
       (streamLogs env i cid).2 ++ (waitForContainer env i cid).2 ++
       (Event.containerRemove i ::
         (match env.removeErr with
          | some e => [Event.log ("Warning: Failed to remove container: " ++ e)]
          | none => []))) := by
  unfold runStep
  rcases h1 : ensureImage env step.image with ⟨r1, ev1⟩
  rw [h1] at hens
  have hr1 : r1 = .ok () := hens
  subst hr1
  rcases h2 : createAndStartContainer env i step rp with ⟨r2, ev2⟩
  rw [h2] at hcs
  have hr2 : r2 = .ok cid := hcs
  subst hr2
  rcases h3 : streamLogs env i cid with ⟨r3, ev3⟩
  rw [h3] at hstr
  have hr3 : r3 = .ok () := hstr
  subst hr3
  rcases h4 : waitForContainer env i cid with ⟨rc, ev4⟩
  rw [h4] at hw
  have hr4 : rc = (c, none) := hw
  subst hr4
  by_cases hz : c ≠ 0
  · simp [hz, h3, h4]
  · simp [hz, h3, h4]

lemma ensureImage_events (env : StepEnv) (nm : String) :
    (ensureImage env nm).2 = [Event.imageListCall] ∨
    (ensureImage env nm).2 = [Event.imageListCall, Event.imagePull nm] := by
  unfold ensureImage
  rcases h1 : env.imageListRes with e | imgs
  · left; rfl
  · by_cases hA : (imgs.any fun image => image.repoTags.any fun tag => tag == nm) = true
    · simp only [hA, if_true]
      exact Or.inl trivial
    · simp only [Bool.not_eq_true] at hA
      simp only [hA, Bool.false_eq_true, if_false]
      rcases h2 : env.pullRes with e | s
      · right; rfl
      · rcases h3 : ioCopyDiscard s with e | n
        · simp only [h3]
          exact Or.inr trivial
        · simp only [h3]
          exact Or.inr trivial

lemma createStart_events (env : StepEnv) (i : Nat) (step : Step) (rp : String) :
    (createAndStartContainer env i step rp).2 = [Event.containerCreate i] ∨
    (createAndStartContainer env i step rp).2 = [Event.containerCreate i, Event.containerStart i] := by
  unfold createAndStartContainer
  rcases h1 : env.createRes with e | cid
  · left; rfl
  · rcases h2 : env.startRes with e | u
    · right; rfl
    · right; rfl

lemma streamLogs_events (env : StepEnv) (i : Nat) (cid : String) :
    (streamLogs env i cid).2 = [Event.containerLogs i] ∨
    ∃ s, env.logsRes = .ok s ∧
      (streamLogs env i cid).2 = Event.containerLogs i :: s.lines.map Event.log := by
  unfold streamLogs
  rcases h1 : env.logsRes with e | s
  · left; rfl
  · right; exact ⟨s, rfl, rfl⟩

lemma wait_events (env : StepEnv) (i : Nat) (cid : String) :
    (waitForContainer env i cid).2 = [Event.containerWait i] := by
  unfold waitForContainer
  rcases h1 : env.waitRes with e | c
  · rfl
  · rfl

lemma remove_not_mem_pre (env : StepEnv) (i : Nat) (step : Step) (rp cid : String) :
    Event.containerRemove i ∉ (ensureImage env step.image).2 ++
      (createAndStartContainer env i step rp).2 ++ (streamLogs env i cid).2 := by
  intro hmem
  rcases List.mem_append.mp hmem with hmem | hmem
  · rcases List.mem_append.mp hmem with hmem | hmem
    · rcases ensureImage_events env step.image with h | h <;> rw [h] at hmem <;> simp at hmem
    · rcases createStart_events env i step rp with h | h <;> rw [h] at hmem <;> simp at hmem
  · rcases streamLogs_events env i cid with h | ⟨s, -, h⟩ <;> rw [h] at hmem
    · simp at hmem
    · rcases List.mem_cons.mp hmem with hmem | hmem
      · exact Event.noConfusion hmem
      · rcases List.mem_map.mp hmem with ⟨l, -, hl⟩
        exact Event.noConfusion hl

/-- C2: Job status lattice and terminal immutability.  A freshly created
job row carries the failed sentinel (-1); every completed run performs
exactly one status write, which is either the failed code (-1) or the
succeeded code (0), so the persisted status sequence is
[Pending], [Pending, Succeeded] or [Pending, Failed], a Running value is
never written, no write follows a terminal write, and the code stored for
a fresh (Pending) job equals the code stored for a Failed job. -/
theorem c2_status_lattice :
    (∀ projectId branch, (createJob projectId branch).status = failedStatus) ∧
    failedStatus = -1 ∧ succeededStatus = 0 ∧
    (∀ env job, statusWrites (Run env job) = [failedStatus] ∨
      statusWrites (Run env job) = [succeededStatus]) :=
  ⟨fun _ _ => rfl, rfl, rfl, fun env job => Run_statusWrites env job⟩

/-- C3: on every path of `Run` the trace ends with exactly one status
write, which is the last event of the run (hence after every log append),
immediately preceded by a log line; when the terminal status is the failed
code, that log line is one of the four human-readable failure messages,
and when it is the succeeded code it is the completion message. -/
theorem c3_terminal_write_last (env : RunEnv) (job : Job) :
    ∃ t line code, Run env job = t ++ [Event.log line, Event.status code] ∧
      statusWrites t = [] ∧
      ((code = failedStatus ∧ describesFailure line) ∨
       (code = succeededStatus ∧ line = "Job completed successfully")) :=
  Run_shape env job

/-- C5 counterexample: the claim says a manifest whose step lacks image and
runs fields is rejected as malformed; instead `loadConfig` accepts it and
produces a Step whose image and runs are empty strings. -/
theorem c5_counterexample :
    loadConfig c5Manifest = .ok { steps := [{ name := "build", image := "", runs := "" }] } :=
  rfl

/-- C5 amended: loading a manifest whose step objects lack image or runs
fields succeeds, defaulting each missing field to the empty string, and the
resulting step is executed by `Run` rather than rejected. -/
theorem c5_missing_fields_default (nm : String) :
    decodeStep (.map [("name", .str nm)]) = .ok { name := nm, image := "", runs := "" } ∧
    loadConfig c5Manifest = .ok { steps := [{ name := "build", image := "", runs := "" }] } ∧
    Event.log ("Starting step " ++ (natStr 1 ++ (": " ++ "build"))) ∈ Run c5Env c5Job := by
  refine ⟨rfl, rfl, ?_⟩
  decide

/-- C6: manifest round-trip: the one-step manifest parses to exactly that
step; a manifest whose steps value is not a list yields an error rather
than a crash; unknown top-level keys are ignored; and a missing manifest
file yields a read error. -/
theorem c6_manifest_roundtrip :
    loadConfig c6GoodManifest =
      .ok { steps := [{ name := "build", image := "alpine", runs := "echo hi" }] } ∧
    (∃ e, loadConfig c6BadSteps = .error e) ∧
    loadConfig c6UnknownKeys =
      .ok { steps := [{ name := "build", image := "alpine", runs := "echo hi" }] } ∧
    (∀ e, loadConfig (.readErr e) = .error ("failed to read config file: " ++ e)) :=
  ⟨rfl, ⟨_, rfl⟩, rfl, fun _ => rfl⟩

/-- C9: the working directory of a run is `repoPath`, determined by the
project name and job id, and jobs with distinct ids always receive
distinct directory paths, for any project names. -/
theorem c9_unique_workdir :
    (∀ env job, env.gitErr = none → (cloneRepository env job).1 = .ok (repoPath job)) ∧
    (∀ j1 j2 : Job, j1.id ≠ j2.id → repoPath j1 ≠ repoPath j2) := by
  constructor
  · intro env job h
    unfold cloneRepository
    rw [h]
  · exact fun j1 j2 h => repoPath_inj j1 j2 h

/-- Witness for C9 at two concrete jobs with ids 7 and 9. -/
theorem c9_witness :
    ((7 : Nat) ≠ 9) ∧
    repoPath { id := 7, branch := "main", project := { id := 1, name := "demo", repo := "r" } } ≠
      repoPath { id := 9, branch := "dev", project := { id := 1, name := "demo", repo := "r" } } :=
  ⟨by decide, c9_unique_workdir.2 _ _ (by decide)⟩

/-- C10: a manifest that parses but yields no steps (absent or empty steps
list) is accepted, and a run over an empty pipeline emits no starting-step
lines, logs the completion message and writes the success status. -/
theorem c10_empty_pipeline (env : RunEnv) (job : Job) :
    (∀ entries : List (String × Yaml), entries.lookup "steps" = none →
      loadConfig (.parsed (.map entries)) = .ok { steps := [] }) ∧
    (∀ entries : List (String × Yaml), entries.lookup "steps" = some (.list []) →
      loadConfig (.parsed (.map entries)) = .ok { steps := [] }) ∧
    (env.gitErr = none → loadConfig env.configData = .ok { steps := [] } →
      env.dockerErr = none →
      Run env job = [Event.log ("Starting job for project: " ++ job.project.name),
        Event.log env.gitOut, Event.log "Job completed successfully",
        Event.status succeededStatus]) := by
  refine ⟨?_, ?_, ?_⟩
  · intro entries h
    unfold loadConfig decodeConfig
    dsimp only
    rw [h]
  · intro entries h
    unfold loadConfig decodeConfig
    dsimp only
    rw [h]
    rfl
  · intro hg hc hd
    unfold Run cloneRepository
    rw [hg, hc, hd]
    rfl

/-- Witness for C10 on a run whose manifest is an empty mapping. -/
theorem c10_witness :
    Run c10Env c10Job = [Event.log ("Starting job for project: " ++ c10Job.project.name),
      Event.log c10Env.gitOut, Event.log "Job completed successfully",
      Event.status succeededStatus] :=
  (c10_empty_pipeline c10Env c10Job).2.2 rfl rfl rfl

/-- C4 counterexample: with the container created and started and the log
stream failing, `runStep` returns the stream error without attempting
container removal, refuting the claim that removal is attempted regardless
of how the step ends. -/
theorem c4_counterexample :
    (runStep c4Env 0 c4Step "/tmp/duck-ci/demo-task-7").1 =
      .error "failed to stream logs: connection reset" ∧
    Event.containerCreate 0 ∈ (runStep c4Env 0 c4Step "/tmp/duck-ci/demo-task-7").2 ∧
    Event.containerStart 0 ∈ (runStep c4Env 0 c4Step "/tmp/duck-ci/demo-task-7").2 ∧
    Event.containerRemove 0 ∉ (runStep c4Env 0 c4Step "/tmp/duck-ci/demo-task-7").2 := by
  refine ⟨rfl, ?_, ?_, ?_⟩ <;> decide

/-- C4 amended: once the container has been created and started, removal is
attempted exactly when the log stream and the exit wait both succeed, and
then regardless of the exit code; a removal failure only adds a warning
log line and never changes the step outcome, which depends on the exit
code alone; on stream failure or wait failure `runStep` returns without
attempting removal. -/
theorem c4_cleanup_scope (env : StepEnv) (i : Nat) (step : Step) (rp cid : String)
    (hens : (ensureImage env step.image).1 = .ok ())
    (hcs : (createAndStartContainer env i step rp).1 = .ok cid) :
    (∀ c : Int, (streamLogs env i cid).1 = .ok () → (waitForContainer env i cid).1 = (c, none) →
      Event.containerRemove i ∈ (runStep env i step rp).2 ∧
      (∀ w, env.removeErr = some w →
        Event.log ("Warning: Failed to remove container: " ++ w) ∈ (runStep env i step rp).2) ∧
      (runStep env i step rp).1 =
        (if c ≠ 0 then .error ("step failed with status code: " ++ intStr c) else .ok ())) ∧
    (∀ e, (streamLogs env i cid).1 = .error e →
      (runStep env i step rp).1 = .error ("failed to stream logs: " ++ e) ∧
      Event.containerRemove i ∉ (runStep env i step rp).2) ∧
    (∀ x e, (waitForContainer env i cid).1 = (x, some e) → (streamLogs env i cid).1 = .ok () →
      (runStep env i step rp).1 = .error ("failed to wait for container: " ++ e) ∧
      Event.containerRemove i ∉ (runStep env i step rp).2) := by
  refine ⟨?_, ?_, ?_⟩
  · intro c hstr hw
    have h := runStep_after_wait env i step rp cid c hens hcs hstr hw
    rw [h]
    refine ⟨by simp, ?_, rfl⟩
    intro w hw2
    rw [hw2]
    simp
  · intro e hstr
    unfold runStep
    rcases h1 : ensureImage env step.image with ⟨r1, ev1⟩
    rw [h1] at hens
    have hr1 : r1 = .ok () := hens
    subst hr1
    dsimp only
    rcases h2 : createAndStartContainer env i step rp with ⟨r2, ev2⟩
    rw [h2] at hcs
    have hr2 : r2 = .ok cid := hcs
    subst hr2
    dsimp only
    rcases h3 : streamLogs env i cid with ⟨r3, ev3⟩
    rw [h3] at hstr
    have hr3 : r3 = .error e := hstr
    subst hr3
    dsimp only
    refine ⟨rfl, ?_⟩
    have hpre := remove_not_mem_pre env i step rp cid
    rw [h1, h2, h3] at hpre
    intro hmem
    apply hpre
    simp only [List.mem_append] at hmem ⊢
    tauto
  · intro x e hw hstr
    unfold runStep
    rcases h1 : ensureImage env step.image with ⟨r1, ev1⟩
    rw [h1] at hens
    have hr1 : r1 = .ok () := hens
    subst hr1
    dsimp only
    rcases h2 : createAndStartContainer env i step rp with ⟨r2, ev2⟩
    rw [h2] at hcs
    have hr2 : r2 = .ok cid := hcs
    subst hr2
    dsimp only
    rcases h3 : streamLogs env i cid with ⟨r3, ev3⟩
    rw [h3] at hstr
    have hr3 : r3 = .ok () := hstr
    subst hr3
    dsimp only
    rcases h4 : waitForContainer env i cid with ⟨rc, ev4⟩
    rw [h4] at hw
    have hr4 : rc = (x, some e) := hw
    subst hr4
    dsimp only
    refine ⟨rfl, ?_⟩
    have hpre := remove_not_mem_pre env i step rp cid
    rw [h1, h2, h3] at hpre
    have hw4 := wait_events env i cid
    rw [h4] at hw4
    intro hmem
    simp only [List.mem_append, hw4] at hmem
    rcases hmem with ((hmem | hmem) | hmem) | hmem
    · exact hpre (by simp only [List.mem_append]; tauto)
    · exact hpre (by simp only [List.mem_append]; tauto)
    · exact hpre (by simp only [List.mem_append]; tauto)
    · have hw4b : ev4 = [Event.containerWait i] := hw4
      rw [hw4b] at hmem
      simp at hmem

/-- Witness for the C4 amended theorem: exit code 3 with a failing removal
still attempts removal, logs the warning and fails the step with the exit
code. -/
theorem c4_witness :
    Event.containerRemove 0 ∈ (runStep c4WitEnv 0 c4Step "/tmp/rp").2 ∧
    Event.log ("Warning: Failed to remove container: " ++ "device busy") ∈
      (runStep c4WitEnv 0 c4Step "/tmp/rp").2 ∧
    (runStep c4WitEnv 0 c4Step "/tmp/rp").1 =
      (if (3 : Int) ≠ 0 then .error ("step failed with status code: " ++ intStr 3) else .ok ()) := by
  obtain ⟨hm, hwarn, hres⟩ :=
    (c4_cleanup_scope c4WitEnv 0 c4Step "/tmp/rp" "cid4w" rfl rfl).1 3 rfl rfl
  exact ⟨hm, hwarn "device busy" rfl, hres⟩

/-- C7: for a step execution whose container is started, streamed and
waited on successfully, `runStep` succeeds when the exit code is zero and
fails with an error recording the exit code when it is non-zero. -/
theorem c7_exit_code_translation (env : StepEnv) (i : Nat) (step : Step) (rp cid : String)
    (c : Int)
    (hens : (ensureImage env step.image).1 = .ok ())
    (hcs : (createAndStartContainer env i step rp).1 = .ok cid)
    (hstr : (streamLogs env i cid).1 = .ok ())
    (hw : (waitForContainer env i cid).1 = (c, none)) :
    (c = 0 → (runStep env i step rp).1 = .ok ()) ∧
    (c ≠ 0 → (runStep env i step rp).1 =
      .error ("step failed with status code: " ++ intStr c)) := by
  have h := runStep_after_wait env i step rp cid c hens hcs hstr hw
  rw [h]
  constructor
  · intro h0
    simp [h0]
  · intro h0
    simp [h0]

/-- Witness for C7: exit code 3 at a concrete environment produces the
failure message recording the code. -/
theorem c7_witness :
    (3 : Int) ≠ 0 ∧
    (runStep c7Env 0 c7Step "/tmp/rp").1 =
      .error ("step failed with status code: " ++ intStr 3) :=
  ⟨by decide,
    (c7_exit_code_translation c7Env 0 c7Step "/tmp/rp" "cid7" 3 rfl rfl rfl rfl).2 (by decide)⟩

/-- C8: ensureImage returns success without pulling when some listed image
carries exactly the requested tag; otherwise it issues a pull and drains
the whole progress stream before returning, failing when the listing, the
pull or the drain fails. -/
theorem c8_ensure_image (env : StepEnv) (nm : String) :
    (∀ e, env.imageListRes = .error e → ensureImage env nm = (.error e, [Event.imageListCall])) ∧
    (∀ imgs, env.imageListRes = .ok imgs →
      ((imgs.any fun im => im.repoTags.any fun tag => tag == nm) = true →
        ensureImage env nm = (.ok (), [Event.imageListCall])) ∧
      ((imgs.any fun im => im.repoTags.any fun tag => tag == nm) = false →
        (ensureImage env nm).2 = [Event.imageListCall, Event.imagePull nm] ∧
        (∀ e, env.pullRes = .error e → (ensureImage env nm).1 = .error e) ∧
        (∀ s, env.pullRes = .ok s →
          ((ensureImage env nm).1 = (match ioCopyDiscard s with
            | .error e => .error e
            | .ok _ => .ok ())) ∧
          (s.readErr = none →
            ioCopyDiscard s = .ok (s.chunks.foldl (fun acc ch => acc + ch.length) 0))))) := by
  refine ⟨?_, ?_⟩
  · intro e he
    unfold ensureImage
    rw [he]
  · intro imgs hio
    constructor
    · intro hA
      unfold ensureImage
      rw [hio]
      simp only [hA, if_true]
    · intro hA
      unfold ensureImage
      rw [hio]
      simp only [hA, Bool.false_eq_true, if_false]
      refine ⟨?_, ?_, ?_⟩
      · rcases h2 : env.pullRes with e | s
        · rfl
        · rcases h3 : ioCopyDiscard s with e | n
          · simp only [h3]
          · simp only [h3]
      · intro e he
        rw [he]
      · intro s hs
        rw [hs]
        constructor
        · rcases h3 : ioCopyDiscard s with e | n
          · simp only [h3]
          · simp only [h3]
        · intro hre
          unfold ioCopyDiscard
          rw [hre]

/-- Witness for C8: a present tag short-circuits without a pull event, and
a missing tag pulls, drains the stream and succeeds. -/
theorem c8_witness :
    ensureImage c8HitEnv "alpine:3" = (.ok (), [Event.imageListCall]) ∧
    (ensureImage c8MissEnv "alpine:3").2 =
      [Event.imageListCall, Event.imagePull "alpine:3"] ∧
    (ensureImage c8MissEnv "alpine:3").1 = .ok () := by
  have h1 := ((c8_ensure_image c8HitEnv "alpine:3").2 _ rfl).1 (by decide)
  have h2 := ((c8_ensure_image c8MissEnv "alpine:3").2 _ rfl).2 (by decide)
  refine ⟨h1, h2.1, ?_⟩
  have h3 := (h2.2.2 _ rfl).1
  rw [h3]
  rfl

/-- C1: fail-fast step iteration.  When the manifest parses to `steps`,
the steps with index below f succeed and the step at index f fails
(1-indexed k = f+1), the run emits exactly f+1 starting-step log lines,
invokes the step executor (whose first action is always the image-list
call) exactly f+1 times, creates containers only for step indices at most
f (never for later steps), and its trace ends with the failure-reason log
line for step f+1 followed by the failed status write, with no further
iteration.  Externally supplied text lines (git output, container output)
are assumed not to begin with the runner's starting-step prefix. -/
theorem c1_fail_fast (env : RunEnv) (job : Job) (steps : List Step) (f : Nat)
    (hspoof : noSpoof env)
    (hgit : env.gitErr = none)
    (hconf : loadConfig env.configData = .ok { steps := steps })
    (hdock : env.dockerErr = none)
    (hf : f < steps.length)
    (hpre : ∀ j, j < f →
      (runStep (env.stepEnvs j) j (steps.getD j { name := "", image := "", runs := "" })
        (repoPath job)).1 = .ok ())
    (hfail : ∃ e, (runStep (env.stepEnvs f) f
      (steps.getD f { name := "", image := "", runs := "" }) (repoPath job)).1 = .error e) :
    List.countP isStartingStepLog (Run env job) = f + 1 ∧
    List.countP isImageListCall (Run env job) = f + 1 ∧
    (∀ j, Event.containerCreate j ∈ Run env job → j ≤ f) ∧
    ∃ t e, Run env job = t ++
      [Event.log ("Step " ++ (natStr (f + 1) ++ (" failed: " ++ e))),
       Event.status failedStatus] := by
  obtain ⟨hgo, hcl⟩ := hspoof
  have hpre0 : ∀ j, j < f →
      (runStep (env.stepEnvs (0 + j)) (0 + j)
        (steps.getD j { name := "", image := "", runs := "" }) (repoPath job)).1 = .ok () := by
    intro j hj
    rw [Nat.zero_add]
    exact hpre j hj
  have hfail0 : ∃ e, (runStep (env.stepEnvs (0 + f)) (0 + f)
      (steps.getD f { name := "", image := "", runs := "" }) (repoPath job)).1 = .error e := by
    obtain ⟨e, he⟩ := hfail
    rw [Nat.zero_add]
    exact ⟨e, he⟩
  obtain ⟨hcnt, hcnt2, hcr, t, e, hshape⟩ :=
    runSteps_fail env (repoPath job) hcl steps f 0 hf hpre0 hfail0
  have hRun : Run env job = Event.log ("Starting job for project: " ++ job.project.name) ::
      Event.log env.gitOut :: runSteps env (repoPath job) steps 0 := by
    unfold Run cloneRepository
    rw [hgit, hconf, hdock]
    rfl
  have hjob : isStartingStepLog
      (Event.log ("Starting job for project: " ++ job.project.name)) = false := by
    simp only [isStartingStepLog]
    exact strStarts_append_false _ "Starting job for project: " _ (by decide) (by decide)
  have hgout : isStartingStepLog (Event.log env.gitOut) = false := by
    simp only [isStartingStepLog]
    exact hgo
  refine ⟨?_, ?_, ?_, ?_⟩
  · rw [hRun]
    simp [List.countP_cons, hjob, hgout, hcnt]
  · rw [hRun]
    simp [List.countP_cons, hcnt2, isImageListCall]
  · intro j hj
    rw [hRun] at hj
    rcases List.mem_cons.mp hj with hj | hj
    · exact Event.noConfusion hj
    · rcases List.mem_cons.mp hj with hj | hj
      · exact Event.noConfusion hj
      · have := hcr j hj
        omega
  · rw [Nat.zero_add] at hshape
    refine ⟨Event.log ("Starting job for project: " ++ job.project.name) ::
      Event.log env.gitOut :: t, e, ?_⟩
    rw [hRun, hshape]
    simp

/-- Witness for C1: the concrete two-step run `c1Env` whose second step
exits 2 emits exactly two starting lines, two executor invocations, no
container for any index above 1, and ends with the step-2 failure and the
failed status. -/
theorem c1_witness :
    List.countP isStartingStepLog (Run c1Env c1Job) = 2 ∧
    List.countP isImageListCall (Run c1Env c1Job) = 2 ∧
    (∀ j, Event.containerCreate j ∈ Run c1Env c1Job → j ≤ 1) ∧
    ∃ t e, Run c1Env c1Job = t ++
      [Event.log ("Step " ++ (natStr 2 ++ (" failed: " ++ e))), Event.status failedStatus] := by
  have hspoof : noSpoof c1Env := by
    constructor
    · decide
    · intro j s hs line hline
      have hj2 : c1Env.stepEnvs j = c1StepOkEnv ∨ c1Env.stepEnvs j = c1StepFailEnv := by
        by_cases hj : j = 0
        · left; simp [c1Env, hj]
        · right; simp [c1Env, hj]
      rcases hj2 with hj2 | hj2 <;> rw [hj2] at hs
      · have hs2 : (Except.ok { lines := ["out1"], scanErr := none } :
            Except String StreamData) = .ok s := hs
        injection hs2 with hs3
        subst hs3
        simp only [List.mem_singleton] at hline
        subst hline
        decide
      · have hs2 : (Except.ok { lines := ["out2"], scanErr := none } :
            Except String StreamData) = .ok s := hs
        injection hs2 with hs3
        subst hs3
        simp only [List.mem_singleton] at hline
        subst hline
        decide
  have hpre : ∀ j, j < 1 →
      (runStep (c1Env.stepEnvs j) j (c1Steps.getD j { name := "", image := "", runs := "" })
        (repoPath c1Job)).1 = .ok () := by
    intro j hj
    have hj0 : j = 0 := by omega
    subst hj0
    rfl
  exact c1_fail_fast c1Env c1Job c1Steps 1 hspoof rfl rfl rfl (by decide) hpre ⟨_, rfl⟩

end DuckCI
